import Mathlib

/-!
Verification development for the streaming chat relay in
`src/desktop/src-tauri/src/lib.rs` (model selection, request building,
SSE frame decoding, session accumulation, event publishing).

The Rust code is shallowly embedded: `serde_json::Value` becomes the
inductive `Json`; the mutable locals of `run_chat_stream` (`buffer`,
`current_tool_id`, `current_tool_name`, `current_tool_input`,
`total_usage`) become the `Session` / `DecState` records; the decoding
loop becomes explicit recursion producing the list of published events.
`u32` counters are `Nat` reduced modulo `2^32` at every addition
(release-mode wrapping semantics, as the spec itself assumes).
-/

namespace ChatRelay

/-- Embedding of `serde_json::Value`.  Non-integral numbers (fraction or
exponent present) are collapsed into `numF`, which is enough because the
code only ever reads numbers through `as_u64`, which returns `None` for
those. -/
inductive Json where
  | null
  | bool (b : Bool)
  | num (n : Int)
  | numF
  | str (s : String)
  | arr (elems : List Json)
  | obj (fields : List (String × Json))

namespace Json

/-- `Map::get` on a JSON object: `Some` only when the value is an object
holding the key. -/
def objGet (j : Json) (k : String) : Option Json :=
  match j with
  | obj fields => fields.lookup k
  | _ => none

/-- Square-bracket indexing `value[key]` of `serde_json`: returns `Null`
when the value is not an object or lacks the key. -/
def getField (j : Json) (k : String) : Json :=
  (j.objGet k).getD Json.null

/-- `Value::as_str`. -/
def asStr : Json → Option String
  | str s => some s
  | _ => none

/-- `Value::as_object`, as the field list. -/
def asObj : Json → Option (List (String × Json))
  | obj fields => some fields
  | _ => none

/-- `Value::as_u64`: only non-negative integers that fit in `u64`. -/
def asU64 : Json → Option Nat
  | num n => if 0 ≤ n ∧ n < (2:Int)^64 then some n.toNat else none
  | _ => none

/-- `serde_json::Map::insert`: replace the value when the key is already
present, otherwise append the new entry. -/
def objInsert (fields : List (String × Json)) (k : String) (v : Json) :
    List (String × Json) :=
  if fields.any (fun p => p.1 = k) then
    fields.map (fun p => if p.1 = k then (k, v) else p)
  else
    fields ++ [(k, v)]

end Json

example : (Json.obj [("type", Json.str "message_stop")]).getField "type" =
    Json.str "message_stop" := rfl

example : (Json.obj [("a", Json.num 3)]).getField "b" = Json.null := rfl

/-! ### JSON text parsing (embedding of `serde_json::from_str::<Value>`) -/

def isJsonWs (c : Char) : Bool := c = ' ' || c = '\t' || c = '\n' || c = '\r'

def skipWs : List Char → List Char
  | [] => []
  | c :: rest => if isJsonWs c then skipWs rest else c :: rest

def hexVal (c : Char) : Option Nat :=
  if '0' ≤ c ∧ c ≤ '9' then some (c.toNat - 48)
  else if 'a' ≤ c ∧ c ≤ 'f' then some (c.toNat - 87)
  else if 'A' ≤ c ∧ c ≤ 'F' then some (c.toNat - 55)
  else none

def hex4 : List Char → Option (Nat × List Char)
  | a :: b :: c :: d :: rest =>
    match hexVal a, hexVal b, hexVal c, hexVal d with
    | some va, some vb, some vc, some vd =>
        some (va * 4096 + vb * 256 + vc * 16 + vd, rest)
    | _, _, _, _ => none
  | _ => none

/-- Parse the remainder of a JSON string literal (opening quote already
consumed), handling the standard escapes including surrogate pairs. -/
def parseStrBody : Nat → List Char → Option (List Char × List Char)
  | 0, _ => none
  | _, [] => none
  | fuel + 1, c :: rest =>
    if c = '"' then some ([], rest)
    else if c = '\\' then
      match rest with
      | [] => none
      | e :: rest2 =>
        let simpleEsc : Option Char :=
          if e = '"' then some '"'
          else if e = '\\' then some '\\'
          else if e = '/' then some '/'
          else if e = 'b' then some (Char.ofNat 8)
          else if e = 'f' then some (Char.ofNat 12)
          else if e = 'n' then some '\n'
          else if e = 'r' then some '\r'
          else if e = 't' then some '\t'
          else none
        match simpleEsc with
        | some ch => (parseStrBody fuel rest2).map (fun p => (ch :: p.1, p.2))
        | none =>
          if e = 'u' then
            match hex4 rest2 with
            | none => none
            | some (n, rest3) =>
              if 0xD800 ≤ n ∧ n ≤ 0xDBFF then
                match rest3 with
                | '\\' :: 'u' :: rest4 =>
                  match hex4 rest4 with
                  | some (n2, rest5) =>
                    if 0xDC00 ≤ n2 ∧ n2 ≤ 0xDFFF then
                      (parseStrBody fuel rest5).map (fun p =>
                        (Char.ofNat (0x10000 + (n - 0xD800) * 1024 + (n2 - 0xDC00)) :: p.1,
                         p.2))
                    else none
                  | none => none
                | _ => none
              else if 0xDC00 ≤ n ∧ n ≤ 0xDFFF then none
              else (parseStrBody fuel rest3).map (fun p => (Char.ofNat n :: p.1, p.2))
          else none
    else if c.toNat < 0x20 then none
    else (parseStrBody fuel rest).map (fun p => (c :: p.1, p.2))

/-- Take the maximal run of leading decimal digits. -/
def takeDigits : List Char → List Char × List Char
  | [] => ([], [])
  | c :: rest =>
    if c.isDigit then
      let p := takeDigits rest
      (c :: p.1, p.2)
    else ([], c :: rest)

def digitsToNat (l : List Char) : Nat :=
  l.foldl (fun acc c => acc * 10 + (c.toNat - 48)) 0

/-- Exponent part after the `e`/`E`: such numbers are non-integral for
`as_u64` purposes, hence `numF`. -/
def parseExpPart (input : List Char) : Option (Json × List Char) :=
  let afterSign :=
    match input with
    | '+' :: r => r
    | '-' :: r => r
    | r => r
  match takeDigits afterSign with
  | ([], _) => none
  | (_ :: _, rest) => some (Json.numF, rest)

/-- Parse a JSON number starting at the given input (first char is `-` or a
digit).  Rejects leading zeros like serde does. -/
def parseNum (input : List Char) : Option (Json × List Char) :=
  let (neg, body) :=
    match input with
    | '-' :: r => (true, r)
    | r => (false, r)
  match takeDigits body with
  | ([], _) => none
  | (ds, rest) =>
    if 1 < ds.length ∧ ds.headI = '0' then none
    else
      let intVal : Json := Json.num ((if neg then (-1 : Int) else 1) * digitsToNat ds)
      match rest with
      | '.' :: r2 =>
        (match takeDigits r2 with
         | ([], _) => none
         | (_ :: _, r3) =>
           match r3 with
           | 'e' :: r4 => parseExpPart r4
           | 'E' :: r4 => parseExpPart r4
           | _ => some (Json.numF, r3))
      | 'e' :: r2 => parseExpPart r2
      | 'E' :: r2 => parseExpPart r2
      | _ => some (intVal, rest)

/-- Keep the later of two fields with the same key (`Map::insert`
last-wins while building the object front to back). -/
def consField (k : String) (v : Json) (fs : List (String × Json)) :
    List (String × Json) :=
  if fs.any (fun p => p.1 = k) then fs else (k, v) :: fs

mutual

def parseVal : Nat → List Char → Option (Json × List Char)
  | 0, _ => none
  | fuel + 1, input =>
    match skipWs input with
    | [] => none
    | c :: rest =>
      if c = 'n' then
        match rest with
        | 'u' :: 'l' :: 'l' :: r => some (Json.null, r)
        | _ => none
      else if c = 't' then
        match rest with
        | 'r' :: 'u' :: 'e' :: r => some (Json.bool true, r)
        | _ => none
      else if c = 'f' then
        match rest with
        | 'a' :: 'l' :: 's' :: 'e' :: r => some (Json.bool false, r)
        | _ => none
      else if c = '"' then
        (parseStrBody (rest.length + 1) rest).map (fun p => (Json.str (String.mk p.1), p.2))
      else if c = '[' then
        match skipWs rest with
        | ']' :: r => some (Json.arr [], r)
        | r2 => parseArrElems fuel r2
      else if c = '{' then
        match skipWs rest with
        | '}' :: r => some (Json.obj [], r)
        | r2 => parseObjFields fuel r2
      else if c = '-' ∨ c.isDigit then parseNum (c :: rest)
      else none

def parseArrElems : Nat → List Char → Option (Json × List Char)
  | 0, _ => none
  | fuel + 1, input =>
    match parseVal fuel input with
    | none => none
    | some (v, r) =>
      match skipWs r with
      | ',' :: r2 =>
        (match parseArrElems fuel r2 with
         | some (Json.arr vs, r3) => some (Json.arr (v :: vs), r3)
         | _ => none)
      | ']' :: r2 => some (Json.arr [v], r2)
      | _ => none

def parseObjFields : Nat → List Char → Option (Json × List Char)
  | 0, _ => none
  | fuel + 1, input =>
    match skipWs input with
    | '"' :: r =>
      (match parseStrBody (r.length + 1) r with
       | none => none
       | some (k, r2) =>
         match skipWs r2 with
         | ':' :: r3 =>
           (match parseVal fuel r3 with
            | none => none
            | some (v, r4) =>
              match skipWs r4 with
              | ',' :: r5 =>
                (match parseObjFields fuel r5 with
                 | some (Json.obj fs, r6) =>
                     some (Json.obj (consField (String.mk k) v fs), r6)
                 | _ => none)
              | '}' :: r5 => some (Json.obj [(String.mk k, v)], r5)
              | _ => none)
         | _ => none)
    | _ => none

end

/-- `serde_json::from_str::<Value>`: the whole input must be consumed up
to trailing whitespace. -/
def parseJson (s : String) : Option Json :=
  match parseVal (2 * s.length + 2) s.data with
  | some (v, rest) => if (skipWs rest).isEmpty then some v else none
  | none => none

example : parseJson "\x7b\"type\":\"message_stop\"\x7d" =
    some (Json.obj [("type", Json.str "message_stop")]) := rfl

example : parseJson "\x7b\"q\":\"x\"\x7d" = some (Json.obj [("q", Json.str "x")]) := rfl

example : parseJson "\x7b" = none := rfl

example : parseJson "" = none := rfl

example : parseJson "[1, 2]" = some (Json.arr [Json.num 1, Json.num 2]) := rfl

/-! ### Byte-stream decoding (embedding of `String::from_utf8_lossy`) -/

def replChar : Char := Char.ofNat 0xFFFD

def isContByte (b : Nat) : Bool := 0x80 ≤ b ∧ b ≤ 0xBF

/-- `String::from_utf8_lossy` over a byte list: well-formed UTF-8
sequences decode to their scalar value; each maximal invalid subpart
becomes one U+FFFD replacement character.  Fuel-indexed to keep the
recursion structural; `utf8LossyChars` supplies enough fuel. -/
def utf8LossyAux : Nat → List Nat → List Char
  | 0, _ => []
  | _, [] => []
  | fuel + 1, b :: rest =>
    if b < 0x80 then Char.ofNat b :: utf8LossyAux fuel rest
    else if 0xC2 ≤ b ∧ b ≤ 0xDF then
      match rest with
      | b2 :: r2 =>
        if isContByte b2 then
          Char.ofNat ((b - 0xC0) * 64 + (b2 - 0x80)) :: utf8LossyAux fuel r2
        else replChar :: utf8LossyAux fuel rest
      | [] => [replChar]
    else if 0xE0 ≤ b ∧ b ≤ 0xEF then
      let lo2 := if b = 0xE0 then 0xA0 else 0x80
      let hi2 := if b = 0xED then 0x9F else 0xBF
      match rest with
      | b2 :: r2 =>
        if lo2 ≤ b2 ∧ b2 ≤ hi2 then
          match r2 with
          | b3 :: r3 =>
            if isContByte b3 then
              Char.ofNat ((b - 0xE0) * 4096 + (b2 - 0x80) * 64 + (b3 - 0x80)) ::
                utf8LossyAux fuel r3
            else replChar :: utf8LossyAux fuel r2
          | [] => [replChar]
        else replChar :: utf8LossyAux fuel rest
      | [] => [replChar]
    else if 0xF0 ≤ b ∧ b ≤ 0xF4 then
      let lo2 := if b = 0xF0 then 0x90 else 0x80
      let hi2 := if b = 0xF4 then 0x8F else 0xBF
      match rest with
      | b2 :: r2 =>
        if lo2 ≤ b2 ∧ b2 ≤ hi2 then
          match r2 with
          | b3 :: r3 =>
            if isContByte b3 then
              match r3 with
              | b4 :: r4 =>
                if isContByte b4 then
                  Char.ofNat
                    ((b - 0xF0) * 262144 + (b2 - 0x80) * 4096 + (b3 - 0x80) * 64 +
                      (b4 - 0x80)) :: utf8LossyAux fuel r4
                else replChar :: utf8LossyAux fuel r3
              | [] => [replChar]
            else replChar :: utf8LossyAux fuel r2
          | [] => [replChar]
        else replChar :: utf8LossyAux fuel rest
      | [] => [replChar]
    else replChar :: utf8LossyAux fuel rest

def utf8LossyChars (bytes : List Nat) : List Char :=
  utf8LossyAux (bytes.length + 1) bytes

def utf8Lossy (bytes : List Nat) : String :=
  String.mk (utf8LossyChars bytes)

/-- Byte encoding of an ASCII-only string, for writing concrete byte
streams in examples. -/
def asciiBytes (s : String) : List Nat := s.data.map Char.toNat

example : utf8LossyChars (asciiBytes "hi") = ['h', 'i'] := by decide

example : utf8LossyChars [0xC3, 0xA9] = ['é'] := by decide

example : utf8LossyChars [0xC3] = [replChar] := by decide

example : utf8LossyChars [0xA9] = [replChar] := by decide

/-! ### Outward event taxonomy and session state (`run_chat_stream` locals) -/

structure ToolUseEvent where
  id : String
  name : String
  input : Json

structure UsageEvent where
  input_tokens : Nat
  output_tokens : Nat
  cache_read_tokens : Option Nat
  cache_write_tokens : Option Nat

/-- The published `ChatEvent`, as the discriminated union the
`event_type` string plus optional payload fields encode. -/
inductive ChatEvent where
  | model_selected (model : String)
  | text (content : String)
  | tool_use (t : ToolUseEvent)
  | usage (u : UsageEvent)
  | done
  | error (msg : String)

/-- The per-stream mutable locals of `run_chat_stream`, minus the raw
byte buffer (tracked separately in `DecState`). -/
structure Session where
  current_tool_id : Option String
  current_tool_name : Option String
  current_tool_input : String
  total_usage : UsageEvent

/-- `u32` wrap-around (release-mode `+=` and `as u32` semantics). -/
def w32 (n : Nat) : Nat := n % 4294967296

def initUsage : UsageEvent :=
  { input_tokens := 0, output_tokens := 0,
    cache_read_tokens := some 0, cache_write_tokens := some 0 }

def initSession : Session :=
  { current_tool_id := none, current_tool_name := none,
    current_tool_input := "", total_usage := initUsage }

/-- Dispatch on one parsed SSE data object: the `match event_type` block
of `run_chat_stream`.  Returns the updated session and the events
published by this step, in order. -/
def processJson (event : Json) (st : Session) : Session × List ChatEvent :=
  let event_type := ((event.getField "type").asStr).getD ""
  if event_type = "message_start" then
    match ((event.getField "message").getField "usage").asObj with
    | some usage =>
      let inc := ((usage.lookup "input_tokens").bind Json.asU64).getD 0
      let u1 := { st.total_usage with
                  input_tokens := w32 (st.total_usage.input_tokens + w32 inc) }
      let u2 :=
        match (usage.lookup "cache_read_input_tokens").bind Json.asU64 with
        | some cr =>
          { u1 with cache_read_tokens := some (w32 (u1.cache_read_tokens.getD 0 + w32 cr)) }
        | none => u1
      let u3 :=
        match (usage.lookup "cache_creation_input_tokens").bind Json.asU64 with
        | some cw =>
          { u2 with cache_write_tokens := some (w32 (u2.cache_write_tokens.getD 0 + w32 cw)) }
        | none => u2
      ({ st with total_usage := u3 }, [])
    | none => (st, [])
  else if event_type = "content_block_start" then
    let block := event.getField "content_block"
    if (block.getField "type").asStr = some "tool_use" then
      ({ st with current_tool_id := (block.getField "id").asStr,
                 current_tool_name := (block.getField "name").asStr,
                 current_tool_input := "" }, [])
    else (st, [])
  else if event_type = "content_block_delta" then
    let delta := event.getField "delta"
    if (delta.getField "type").asStr = some "text_delta" then
      match (delta.getField "text").asStr with
      | some text => (st, [ChatEvent.text text])
      | none => (st, [])
    else if (delta.getField "type").asStr = some "input_json_delta" then
      match (delta.getField "partial_json").asStr with
      | some json =>
        ({ st with current_tool_input := st.current_tool_input ++ json }, [])
      | none => (st, [])
    else (st, [])
  else if event_type = "content_block_stop" then
    match st.current_tool_id, st.current_tool_name with
    | some id, some name =>
      let input := (parseJson st.current_tool_input).getD (Json.obj [])
      ({ st with current_tool_id := none, current_tool_name := none,
                 current_tool_input := "" },
       [ChatEvent.tool_use { id := id, name := name, input := input }])
    | _, _ =>
      ({ st with current_tool_id := none, current_tool_name := none }, [])
  else if event_type = "message_delta" then
    match (event.getField "usage").asObj with
    | some usage =>
      let inc := ((usage.lookup "output_tokens").bind Json.asU64).getD 0
      ({ st with total_usage :=
          { st.total_usage with
            output_tokens := w32 (st.total_usage.output_tokens + w32 inc) } }, [])
    | none => (st, [])
  else if event_type = "message_stop" then
    (st, [ChatEvent.usage st.total_usage, ChatEvent.done])
  else (st, [])

/-- One `data: `-stripped line: the `[DONE]` sentinel is skipped, an
unparseable line is skipped, otherwise dispatch. -/
def processData (data : String) (st : Session) : Session × List ChatEvent :=
  if data = "[DONE]" then (st, [])
  else
    match parseJson data with
    | some event => processJson event st
    | none => (st, [])

/-! ### Frame splitting (`str::lines`, `strip_prefix("data: ")`, `find("\n\n")`) -/

def splitOnNl : List Char → List (List Char)
  | [] => [[]]
  | c :: rest =>
    if c = '\n' then [] :: splitOnNl rest
    else
      match splitOnNl rest with
      | [] => [[c]]
      | l :: ls => (c :: l) :: ls

def stripCR (l : List Char) : List Char :=
  match l.getLast? with
  | some '\r' => l.dropLast
  | _ => l

/-- Rust `str::lines()`: split on `\n`, drop one final empty piece, trim
one trailing `\r` per line. -/
def rustLines (s : List Char) : List (List Char) :=
  let parts := splitOnNl s
  (if parts.getLast? = some [] then parts.dropLast else parts).map stripCR

def dataTag : List Char := ['d', 'a', 't', 'a', ':', ' ']

def stripDataTag (line : List Char) : Option (List Char) :=
  if dataTag.isPrefixOf line then some (line.drop 6) else none

def processLineStep (acc : Session × List ChatEvent) (line : List Char) :
    Session × List ChatEvent :=
  match stripDataTag line with
  | none => acc
  | some d =>
    let r := processData (String.mk d) acc.1
    (r.1, acc.2 ++ r.2)

/-- Process one extracted frame: every `data: ` line, in order. -/
def processFrame (frame : List Char) (st : Session) : Session × List ChatEvent :=
  (rustLines frame).foldl processLineStep (st, [])

/-- First index at which `"\n\n"` occurs (`buffer.find("\n\n")`). -/
def findTwoNl : List Char → Option Nat
  | [] => none
  | c :: rest =>
    match rest with
    | [] => none
    | c2 :: _ =>
      if c = '\n' ∧ c2 = '\n' then some 0
      else (findTwoNl rest).map (· + 1)

/-- The inner `while let Some(event_end) = buffer.find("\n\n")` loop:
extract each complete frame, process it, continue on the remainder.
Fuel-indexed (the buffer shrinks by at least two per iteration, so
`buf.length` fuel is always enough). -/
def drainAux : Nat → List Char → Session → List Char × Session × List ChatEvent
  | 0, buf, st => (buf, st, [])
  | fuel + 1, buf, st =>
    match findTwoNl buf with
    | none => (buf, st, [])
    | some i =>
      let r1 := processFrame (buf.take i) st
      let r2 := drainAux fuel (buf.drop (i + 2)) r1.1
      (r2.1, r2.2.1, r1.2 ++ r2.2.2)

def drainBuffer (buf : List Char) (st : Session) :
    List Char × Session × List ChatEvent :=
  drainAux buf.length buf st

/-- The decoder state across chunks: the pending `buffer` plus session. -/
structure DecState where
  buffer : List Char
  session : Session

def initDecState : DecState := { buffer := [], session := initSession }

/-- One iteration of the outer chunk loop at the character level:
`buffer.push_str(chunk)` then drain complete frames. -/
def feedChunk (d : DecState) (s : List Char) : DecState × List ChatEvent :=
  let r := drainBuffer (d.buffer ++ s) d.session
  ({ buffer := r.1, session := r.2.1 }, r.2.2)

def feedChunks : DecState → List (List Char) → DecState × List ChatEvent
  | d, [] => (d, [])
  | d, c :: cs =>
    let r1 := feedChunk d c
    let r2 := feedChunks r1.1 cs
    (r2.1, r1.2 ++ r2.2)

/-! ### Model selection (`select_model`) -/

structure Message where
  role : String
  content : Json

structure ChatRequest where
  messages : List Message
  system_prompt : String
  tools : Option (List Json)
  stream_id : String
  model : Option String

def MODEL_HAIKU : String := "claude-haiku-4-5-20251001"

def MODEL_SONNET : String := "claude-sonnet-4-5-20250929"

/-- Character-wise lowercase covering the alphabets the keyword set
uses: ASCII, Latin-1 letters, and the Cyrillic А–Я / Ё block (Rust's
`to_lowercase` is full Unicode; the difference is irrelevant to the
keyword test, whose keywords are all already lowercase in these
alphabets). -/
def rustToLowerChar (c : Char) : Char :=
  let n := c.toNat
  if 65 ≤ n ∧ n ≤ 90 then Char.ofNat (n + 32)
  else if 0xC0 ≤ n ∧ n ≤ 0xDE ∧ n ≠ 0xD7 then Char.ofNat (n + 32)
  else if 0x410 ≤ n ∧ n ≤ 0x42F then Char.ofNat (n + 32)
  else if n = 0x401 then Char.ofNat 0x451
  else c

def rustToLower (s : String) : String := String.mk (s.data.map rustToLowerChar)

/-- `str::contains(substring)`. -/
def containsSeq : List Char → List Char → Bool
  | hay, needle =>
    needle.isPrefixOf hay ||
      (match hay with
       | [] => false
       | _ :: t => containsSeq t needle)

def strContains (hay needle : String) : Bool := containsSeq hay.data needle.data

/-- The fixed keyword test of the `auto` arm. -/
def needs_sonnet (text : String) : Bool :=
  strContains text "translat"
    || strContains text "перевод"
    || strContains text "übersetze"
    || strContains text "tradui"
    || strContains text "qa"
    || strContains text "quality"
    || strContains text "check"
    || strContains text "review"
    || strContains text "fix"
    || strContains text "correct"
    || strContains text "update"
    || strContains text "change"
    || strContains text "edit"
    || strContains text "improve"

def select_model (requested : Option String) (messages : List Message) : String :=
  match requested with
  | some "haiku" => MODEL_HAIKU
  | some "sonnet" => MODEL_SONNET
  | some "auto" | none =>
    let last_message :=
      messages.getLast?.bind (fun m =>
        match m.content with
        | Json.str s => some (rustToLower s)
        | _ => none)
    (match last_message with
     | some text => if needs_sonnet text then MODEL_SONNET else MODEL_HAIKU
     | none => MODEL_SONNET)
  | some _ => MODEL_SONNET

/-! ### Request building (payload construction in `run_chat_stream`) -/

def ephemeralMarker : Json := Json.obj [("type", Json.str "ephemeral")]

def markCacheOnTool : Json → Json
  | Json.obj fields => Json.obj (Json.objInsert fields "cache_control" ephemeralMarker)
  | t => t

/-- The `enumerate().map(...)` pass: the source compares the tool's list
index `i` against `obj.len() - 1` — the tool's own field count minus
one, not the tool list's length (`usize` wrap-around for an empty map
means an empty-object tool never matches, hence `i + 1 = fields.length`). -/
def toolsCachePass (tools : List Json) : List Json :=
  tools.enum.map (fun p =>
    match p.2 with
    | Json.obj fields =>
      if p.1 + 1 = fields.length then
        Json.obj (Json.objInsert fields "cache_control" ephemeralMarker)
      else Json.obj fields
    | t => t)

/-- The `last_mut()` fix-up pass: mark the actual last tool. -/
def markLastTool : List Json → List Json
  | [] => []
  | [t] => [markCacheOnTool t]
  | t :: ts => t :: markLastTool ts

def toolsWithCache (tools : List Json) : List Json :=
  markLastTool (toolsCachePass tools)

def messageJson (m : Message) : Json :=
  Json.obj [("role", Json.str m.role), ("content", m.content)]

/-- The outbound JSON payload of `run_chat_stream`. -/
def buildBody (req : ChatRequest) (model : String) : Json :=
  let base : List (String × Json) :=
    [("model", Json.str model),
     ("max_tokens", Json.num 8192),
     ("stream", Json.bool true),
     ("system", Json.arr [Json.obj
        [("type", Json.str "text"),
         ("text", Json.str req.system_prompt),
         ("cache_control", ephemeralMarker)]]),
     ("messages", Json.arr (req.messages.map messageJson))]
  match req.tools with
  | some tools =>
    if tools.isEmpty then Json.obj base
    else Json.obj (Json.objInsert base "tools" (Json.arr (toolsWithCache tools)))
  | none => Json.obj base

/-! ### The full stream task (`chat_stream` and `run_chat_stream`) -/

/-- Outcome of the outbound POST, as seen by the decoding task: a send
failure, a non-success status (with body), or the response byte stream
(each chunk either bytes or a mid-stream transport error). -/
inductive RespOutcome where
  | sendFail (e : String)
  | httpFail (status : String) (body : String)
  | ok (chunks : List (Except String (List Nat)))

/-- The `while let Some(chunk_result) = stream.next().await` loop: each
chunk is lossily UTF-8-decoded and fed to the frame splitter; a chunk
error aborts immediately with the `Stream error` message. -/
def decodeLoop : List (Except String (List Nat)) → DecState →
    DecState × List ChatEvent × Option String
  | [], d => (d, [], none)
  | Except.error e :: _, d => (d, [], some ("Stream error: " ++ e))
  | Except.ok c :: rest, d =>
    let r1 := feedChunk d (utf8LossyChars c)
    let r2 := decodeLoop rest r1.1
    (r2.1, r1.2 ++ r2.2.1, r2.2.2)

/-- Events emitted by `run_chat_stream` itself, plus its error result:
`model_selected` goes out before the POST; setup/transport failures
return `Err` without further emission. -/
def run_chat_stream_events (req : ChatRequest) (resp : RespOutcome) :
    List ChatEvent × Option String :=
  let model := select_model req.model req.messages
  let intro := [ChatEvent.model_selected model]
  match resp with
  | RespOutcome.sendFail e => (intro, some ("Request failed: " ++ e))
  | RespOutcome.httpFail status body =>
      (intro, some ("API error " ++ status ++ ": " ++ body))
  | RespOutcome.ok chunks =>
    let r := decodeLoop chunks initDecState
    (intro ++ r.2.1, r.2.2)

/-- The `chat_stream` command: with no API key it returns `Err` to its
caller before spawning anything; otherwise the spawned task runs
`run_chat_stream` and appends one `error` event when that fails.  The
second component is the full published event sequence for the stream. -/
def chat_stream (api_key : Option String) (req : ChatRequest)
    (resp : RespOutcome) : Except String Unit × List ChatEvent :=
  match api_key with
  | none => (Except.error "API key not set", [])
  | some _ =>
    let r := run_chat_stream_events req resp
    (Except.ok (),
     r.1 ++ (match r.2 with
             | some e => [ChatEvent.error e]
             | none => []))

/-! ### Concrete sanity scenarios (spec §8) -/

set_option maxRecDepth 100000

def sseFrame (j : String) : String := "data: " ++ j ++ "\n\n"

def toolScenario : String :=
  sseFrame "\x7b\"type\":\"content_block_start\",\"content_block\":\x7b\"type\":\"tool_use\",\"id\":\"t1\",\"name\":\"lookup\"\x7d\x7d"
  ++ sseFrame "\x7b\"type\":\"content_block_delta\",\"delta\":\x7b\"type\":\"input_json_delta\",\"partial_json\":\"\x7b\\\"q\\\":\"\x7d\x7d"
  ++ sseFrame "\x7b\"type\":\"content_block_delta\",\"delta\":\x7b\"type\":\"input_json_delta\",\"partial_json\":\"\\\"x\\\"\x7d\"\x7d\x7d"
  ++ sseFrame "\x7b\"type\":\"content_block_stop\"\x7d"

example : (feedChunks initDecState [toolScenario.data]).2 =
    [ChatEvent.tool_use
      { id := "t1", name := "lookup", input := Json.obj [("q", Json.str "x")] }] := rfl

def usageScenario : String :=
  sseFrame "\x7b\"type\":\"message_start\",\"message\":\x7b\"usage\":\x7b\"input_tokens\":10\x7d\x7d\x7d"
  ++ sseFrame "\x7b\"type\":\"message_delta\",\"usage\":\x7b\"output_tokens\":5\x7d\x7d"
  ++ sseFrame "\x7b\"type\":\"message_stop\"\x7d"

example : (feedChunks initDecState [usageScenario.data]).2 =
    [ChatEvent.usage
      { input_tokens := 10, output_tokens := 5,
        cache_read_tokens := some 0, cache_write_tokens := some 0 },
     ChatEvent.done] := rfl

example : (feedChunks initDecState [(sseFrame "[DONE]").data]).2 = [] := rfl

/-! ### Derived quantities used by the theorems -/

/-- The amount the `message_start` arm adds to `input_tokens`
(`unwrap_or(0) as u32`), zero for every other event kind. -/
def inputInc (event : Json) : Nat :=
  if ((event.getField "type").asStr).getD "" = "message_start" then
    match ((event.getField "message").getField "usage").asObj with
    | some usage => w32 (((usage.lookup "input_tokens").bind Json.asU64).getD 0)
    | none => 0
  else 0

/-- The amount the `message_delta` arm adds to `output_tokens`. -/
def outputInc (event : Json) : Nat :=
  if ((event.getField "type").asStr).getD "" = "message_delta" then
    match (event.getField "usage").asObj with
    | some usage => w32 (((usage.lookup "output_tokens").bind Json.asU64).getD 0)
    | none => 0
  else 0

/-- The amount the `message_start` arm adds to `cache_read_tokens`. -/
def cacheReadInc (event : Json) : Nat :=
  if ((event.getField "type").asStr).getD "" = "message_start" then
    match ((event.getField "message").getField "usage").asObj with
    | some usage =>
      (match (usage.lookup "cache_read_input_tokens").bind Json.asU64 with
       | some cr => w32 cr
       | none => 0)
    | none => 0
  else 0

/-- The amount the `message_start` arm adds to `cache_write_tokens`. -/
def cacheWriteInc (event : Json) : Nat :=
  if ((event.getField "type").asStr).getD "" = "message_start" then
    match ((event.getField "message").getField "usage").asObj with
    | some usage =>
      (match (usage.lookup "cache_creation_input_tokens").bind Json.asU64 with
       | some cw => w32 cw
       | none => 0)
    | none => 0
  else 0

def isModelSel : ChatEvent → Bool
  | ChatEvent.model_selected _ => true
  | _ => false

def isErrorEv : ChatEvent → Bool
  | ChatEvent.error _ => true
  | _ => false

/-- Events that only the surrounding task, never the frame decoder,
can publish. -/
def isMeta (e : ChatEvent) : Bool := isModelSel e || isErrorEv e

/-- Fold of `processLineStep` over a bare line list (what `processFrame`
does after `lines()`). -/
def processLines (ls : List (List Char)) (st : Session) :
    Session × List ChatEvent :=
  ls.foldl processLineStep (st, [])

/-- Fold of `processData` over a list of already-stripped data lines. -/
def processDatas (ds : List (List Char)) (st : Session) :
    Session × List ChatEvent :=
  ds.foldl
    (fun acc d =>
      let r := processData (String.mk d) acc.1
      (r.1, acc.2 ++ r.2)) (st, [])

/-- The complete frames a character stream splits into (the part of the
stream the drain loop will ever look at). -/
def framesAux : Nat → List Char → List (List Char)
  | 0, _ => []
  | fuel + 1, s =>
    match findTwoNl s with
    | none => []
    | some i => s.take i :: framesAux fuel (s.drop (i + 2))

def framesOf (s : List Char) : List (List Char) := framesAux s.length s

/-- All `data: `-stripped lines of the complete frames of a stream, in
processing order. -/
def streamDataLines (s : List Char) : List (List Char) :=
  (((framesOf s).map rustLines).flatten).filterMap stripDataTag

/-! ### Concrete inputs for counterexamples and witnesses -/

/-- Two tools; the first has exactly one key so the buggy
`i == obj.len() - 1` comparison fires at index `0`. -/
def c1Tools : List Json :=
  [Json.obj [("name", Json.str "a")],
   Json.obj [("name", Json.str "b"), ("x", Json.num 1), ("y", Json.num 2)]]

def c1Request : ChatRequest :=
  { messages := [], system_prompt := "sys", tools := some c1Tools,
    stream_id := "sid", model := some "haiku" }

def c2Head : String :=
  "data: \x7b\"type\":\"content_block_delta\",\"delta\":\x7b\"type\":\"text_delta\",\"text\":\""

def c2Tail : String := "\"\x7d\x7d\n\n"

/-- One SSE frame whose text delta is `é` (UTF-8 `C3 A9`). -/
def c2Bytes : List Nat := asciiBytes c2Head ++ [0xC3, 0xA9] ++ asciiBytes c2Tail

/-- The same bytes split in the middle of the two-byte character. -/
def c2BytesA : List Nat := asciiBytes c2Head ++ [0xC3]

def c2BytesB : List Nat := [0xA9] ++ asciiBytes c2Tail

/-- The same bytes split between whole characters. -/
def c2BytesA' : List Nat := asciiBytes c2Head

def c2BytesB' : List Nat := [0xC3, 0xA9] ++ asciiBytes c2Tail

/-- A stream whose upstream keeps sending frames after `message_stop`. -/
def c3Bytes : List Nat :=
  asciiBytes (sseFrame "\x7b\"type\":\"message_stop\"\x7d"
    ++ sseFrame
      "\x7b\"type\":\"content_block_delta\",\"delta\":\x7b\"type\":\"text_delta\",\"text\":\"hi\"\x7d\x7d")

def plainRequest : ChatRequest :=
  { messages := [], system_prompt := "", tools := none,
    stream_id := "s1", model := some "haiku" }

/-- A well-behaved stream: the `message_stop` line is the last data line. -/
def wellBytes : List Nat := asciiBytes usageScenario

def msgStartOne : Json :=
  Json.obj [("type", Json.str "message_start"),
            ("message", Json.obj [("usage", Json.obj [("input_tokens", Json.num 1)])])]

/-- A session whose input tally sits at `u32::MAX`. -/
def maxedSession : Session :=
  { initSession with total_usage := { initUsage with input_tokens := 4294967295 } }

def inputJsonDeltaEvt : Json :=
  Json.obj [("type", Json.str "content_block_delta"),
            ("delta", Json.obj [("type", Json.str "input_json_delta"),
                                ("partial_json", Json.str "\x7b\"q\":")])]

def blockStopEvt : Json := Json.obj [("type", Json.str "content_block_stop")]

def noIdToolStartEvt : Json :=
  Json.obj [("type", Json.str "content_block_start"),
            ("content_block", Json.obj [("type", Json.str "tool_use"),
                                        ("name", Json.str "lookup")])]

/-- A session with an open tool slot whose buffered input is not valid
JSON. -/
def badInputSession : Session :=
  { initSession with current_tool_id := some "t1",
                     current_tool_name := some "lookup",
                     current_tool_input := "\x7b\"q\":" }

/-! ## Helper lemmas -/

set_option maxHeartbeats 1000000 in
/-- Every step of the dispatch publishes one of exactly four event-list
shapes; in particular `tool_use` arises only from `content_block_stop`
with both slots filled. -/
theorem processJson_events_cases (event : Json) (st : Session) :
    (processJson event st).2 = [] ∨
    (∃ s, (processJson event st).2 = [ChatEvent.text s]) ∨
    ((processJson event st).2 = [ChatEvent.usage st.total_usage, ChatEvent.done] ∧
       ((event.getField "type").asStr).getD "" = "message_stop") ∨
    (∃ id nm,
       ((event.getField "type").asStr).getD "" = "content_block_stop" ∧
       st.current_tool_id = some id ∧ st.current_tool_name = some nm ∧
       (processJson event st).2 =
         [ChatEvent.tool_use ⟨id, nm, (parseJson st.current_tool_input).getD (Json.obj [])⟩]) := by
  simp only [processJson]
  split_ifs with h1 h2 h3 h4 h5 h6 <;>
    (try (repeat' split)) <;> simp_all

/-! ## Claim theorems -/

/-- C10: processing a `content_block_stop` event always leaves both
tool slots empty afterwards, whatever the prior state and whether or not
a `tool_use` event was published (`Option::take` runs on both slots on
every pass through that arm). -/
theorem stop_clears_tool_slots (event : Json) (st : Session)
    (h : ((event.getField "type").asStr).getD "" = "content_block_stop") :
    (processJson event st).1.current_tool_id = none ∧
    (processJson event st).1.current_tool_name = none := by
  unfold processJson
  rw [h]
  norm_num
  rcases hid : st.current_tool_id with _ | id <;>
    rcases hnm : st.current_tool_name with _ | nm <;> simp

theorem stop_clears_tool_slots_witness :
    (processJson blockStopEvt badInputSession).1.current_tool_id = none ∧
    (processJson blockStopEvt badInputSession).1.current_tool_name = none :=
  stop_clears_tool_slots blockStopEvt badInputSession rfl

/-- C7: with an open tool slot whose buffered input fails to parse,
`content_block_stop` publishes a `tool_use` event carrying the slot's id
and name with an empty object as input — and nothing else, so no
`error` event. -/
theorem unparseable_tool_input_empty_obj (event : Json) (st : Session)
    (id nm : String)
    (h : ((event.getField "type").asStr).getD "" = "content_block_stop")
    (hid : st.current_tool_id = some id) (hnm : st.current_tool_name = some nm)
    (hp : parseJson st.current_tool_input = none) :
    (processJson event st).2 = [ChatEvent.tool_use ⟨id, nm, Json.obj []⟩] := by
  unfold processJson
  rw [h]
  norm_num
  rw [hid, hnm]
  simp [hp]

theorem unparseable_tool_input_empty_obj_witness :
    (processJson blockStopEvt badInputSession).2 =
      [ChatEvent.tool_use ⟨"t1", "lookup", Json.obj []⟩] :=
  unparseable_tool_input_empty_obj blockStopEvt badInputSession "t1" "lookup"
    rfl rfl rfl rfl

/-- C6: a `content_block_delta` of kind `input_json_delta` publishes no
event and only appends the fragment to the open tool-call buffer; and a
`tool_use` event is published only by a `content_block_stop` processed
while both tool slots are filled. -/
theorem input_json_delta_buffers_only :
    (∀ event st,
        ((event.getField "type").asStr).getD "" = "content_block_delta" →
        ((event.getField "delta").getField "type").asStr = some "input_json_delta" →
        processJson event st =
          (⟨st.current_tool_id, st.current_tool_name,
            st.current_tool_input ++
              ((((event.getField "delta").getField "partial_json").asStr).getD ""),
            st.total_usage⟩, [])) ∧
    (∀ event st t, ChatEvent.tool_use t ∈ (processJson event st).2 →
        ((event.getField "type").asStr).getD "" = "content_block_stop" ∧
        st.current_tool_id.isSome ∧ st.current_tool_name.isSome) := by
  constructor
  · intro event st h hd
    simp only [processJson]
    rw [h, hd]
    norm_num
    cases hp : ((event.getField "delta").getField "partial_json").asStr <;> simp [hp]
  · intro event st t hmem
    rcases processJson_events_cases event st with h0 | ⟨s, h0⟩ | ⟨h0, _⟩ |
      ⟨id, nm, h1, h2, h3, h0⟩ <;> rw [h0] at hmem <;> simp_all

theorem input_json_delta_buffers_only_witness :
    processJson inputJsonDeltaEvt initSession =
      (⟨none, none, "\x7b\"q\":", initUsage⟩, []) :=
  input_json_delta_buffers_only.1 inputJsonDeltaEvt initSession rfl rfl

/-- C9: a `tool_use` block start lacking `id` or `name` leaves the
corresponding slot `None` (and resets the buffer); a
`content_block_stop` with either slot `None` publishes nothing; and any
`tool_use` block start resets the input buffer, so fragments
accumulated for an identity-less block are never published. -/
theorem missing_tool_identity_never_published :
    (∀ event st,
        ((event.getField "type").asStr).getD "" = "content_block_start" →
        ((event.getField "content_block").getField "type").asStr = some "tool_use" →
        (((event.getField "content_block").getField "id").asStr = none ∨
         ((event.getField "content_block").getField "name").asStr = none) →
        ((processJson event st).1.current_tool_id = none ∨
         (processJson event st).1.current_tool_name = none) ∧
        (processJson event st).1.current_tool_input = "" ∧
        (processJson event st).2 = []) ∧
    (∀ event st,
        ((event.getField "type").asStr).getD "" = "content_block_stop" →
        (st.current_tool_id = none ∨ st.current_tool_name = none) →
        (processJson event st).2 = []) ∧
    (∀ event st,
        ((event.getField "type").asStr).getD "" = "content_block_start" →
        ((event.getField "content_block").getField "type").asStr = some "tool_use" →
        (processJson event st).1.current_tool_input = "") := by
  refine ⟨?_, ?_, ?_⟩
  · intro event st h hb hmiss
    simp only [processJson]
    rw [h, hb]
    norm_num
    rcases hmiss with hm | hm <;> simp [hm]
  · intro event st h hmiss
    simp only [processJson]
    rw [h]
    norm_num
    rcases hid : st.current_tool_id with _ | id <;>
      rcases hnm : st.current_tool_name with _ | nm <;> simp_all
  · intro event st h hb
    simp only [processJson]
    rw [h, hb]
    norm_num
    simp

theorem missing_tool_identity_never_published_witness :
    ((processJson noIdToolStartEvt initSession).1.current_tool_id = none ∨
     (processJson noIdToolStartEvt initSession).1.current_tool_name = none) ∧
    (processJson noIdToolStartEvt initSession).1.current_tool_input = "" ∧
    (processJson noIdToolStartEvt initSession).2 = [] :=
  missing_tool_identity_never_published.1 noIdToolStartEvt initSession rfl rfl
    (Or.inl rfl)

/-- C8: `select_model` is pure and total by construction; this pins the
five kinds of behaviour the spec lists. -/
theorem select_model_spec :
    (∀ messages, select_model (some "haiku") messages = MODEL_HAIKU) ∧
    (∀ messages, select_model (some "sonnet") messages = MODEL_SONNET) ∧
    (∀ requested messages (m : Message) s,
        (requested = some "auto" ∨ requested = none) →
        messages.getLast? = some m → m.content = Json.str s →
        needs_sonnet (rustToLower s) = false →
        select_model requested messages = MODEL_HAIKU) ∧
    (∀ requested messages (m : Message) s,
        (requested = some "auto" ∨ requested = none) →
        messages.getLast? = some m → m.content = Json.str s →
        strContains (rustToLower s) "review" = true →
        select_model requested messages = MODEL_SONNET) ∧
    (∀ requested messages,
        (requested = some "auto" ∨ requested = none) →
        messages.getLast?.bind (fun m => m.content.asStr) = none →
        select_model requested messages = MODEL_SONNET) := by
  refine ⟨fun _ => rfl, fun _ => rfl, ?_, ?_, ?_⟩
  · intro requested messages m s hreq hm hc hk
    rcases hreq with h | h <;> subst h <;> simp only [select_model] <;> rw [hm] <;>
      simp [hc, hk]
  · intro requested messages m s hreq hm hc hr
    have hk : needs_sonnet (rustToLower s) = true := by
      simp [needs_sonnet, hr]
    rcases hreq with h | h <;> subst h <;> simp only [select_model] <;> rw [hm] <;>
      simp [hc, hk]
  · intro requested messages hreq hb
    rcases hreq with h | h <;> subst h <;> simp only [select_model] <;>
      (rcases hl : messages.getLast? with _ | m
       · simp
       · rw [hl] at hb
         simp only [Option.some_bind] at hb
         cases hc : m.content <;> simp_all [Json.asStr])

theorem select_model_spec_witness :
    select_model (some "auto") [⟨"user", Json.str "please review this"⟩] =
      MODEL_SONNET ∧
    select_model none [⟨"user", Json.str "hello there"⟩] = MODEL_HAIKU ∧
    select_model (some "auto") [⟨"user", Json.arr []⟩] = MODEL_SONNET :=
  ⟨select_model_spec.2.2.2.1 (some "auto") _ _ "please review this" (Or.inl rfl)
      rfl rfl (by decide),
   select_model_spec.2.2.1 none _ _ "hello there" (Or.inr rfl) rfl rfl (by decide),
   select_model_spec.2.2.2.2 (some "auto") _ (Or.inl rfl) rfl⟩

set_option maxHeartbeats 1000000 in
/-- Each step changes `input_tokens` either not at all or by the
wrapped `message_start` increment. -/
theorem processJson_input_change (event : Json) (st : Session) :
    (processJson event st).1.total_usage.input_tokens =
      st.total_usage.input_tokens ∨
    (processJson event st).1.total_usage.input_tokens =
      w32 (st.total_usage.input_tokens + inputInc event) := by
  simp only [processJson, inputInc]
  split_ifs <;> (repeat' split) <;> simp

set_option maxHeartbeats 1000000 in
/-- Each step changes `output_tokens` either not at all or by the
wrapped `message_delta` increment. -/
theorem processJson_output_change (event : Json) (st : Session) :
    (processJson event st).1.total_usage.output_tokens =
      st.total_usage.output_tokens ∨
    (processJson event st).1.total_usage.output_tokens =
      w32 (st.total_usage.output_tokens + outputInc event) := by
  simp only [processJson, outputInc]
  split_ifs <;> (repeat' split) <;> simp

set_option maxHeartbeats 1000000 in
/-- Each step changes `cache_read_tokens` either not at all or by the
wrapped `message_start` cache-read increment. -/
theorem processJson_cache_read_change (event : Json) (st : Session) :
    (processJson event st).1.total_usage.cache_read_tokens.getD 0 =
      st.total_usage.cache_read_tokens.getD 0 ∨
    (processJson event st).1.total_usage.cache_read_tokens.getD 0 =
      w32 (st.total_usage.cache_read_tokens.getD 0 + cacheReadInc event) := by
  simp only [processJson, cacheReadInc]
  split_ifs <;> (repeat' split) <;> simp

set_option maxHeartbeats 1000000 in
/-- Each step changes `cache_write_tokens` either not at all or by the
wrapped `message_start` cache-write increment. -/
theorem processJson_cache_write_change (event : Json) (st : Session) :
    (processJson event st).1.total_usage.cache_write_tokens.getD 0 =
      st.total_usage.cache_write_tokens.getD 0 ∨
    (processJson event st).1.total_usage.cache_write_tokens.getD 0 =
      w32 (st.total_usage.cache_write_tokens.getD 0 + cacheWriteInc event) := by
  simp only [processJson, cacheWriteInc]
  split_ifs <;> (repeat' split) <;> simp

/-- C5 (amended): each of the four tally counters is non-decreasing
across a step provided that step's wrapped addition does not overflow
`u32` (the unamended claim fails at the wrap-around, see the
counterexample). -/
theorem usage_tally_monotone (event : Json) (st : Session)
    (h1 : st.total_usage.input_tokens + inputInc event < 4294967296)
    (h2 : st.total_usage.output_tokens + outputInc event < 4294967296)
    (h3 : st.total_usage.cache_read_tokens.getD 0 + cacheReadInc event < 4294967296)
    (h4 : st.total_usage.cache_write_tokens.getD 0 + cacheWriteInc event < 4294967296) :
    st.total_usage.input_tokens ≤
      (processJson event st).1.total_usage.input_tokens ∧
    st.total_usage.output_tokens ≤
      (processJson event st).1.total_usage.output_tokens ∧
    st.total_usage.cache_read_tokens.getD 0 ≤
      (processJson event st).1.total_usage.cache_read_tokens.getD 0 ∧
    st.total_usage.cache_write_tokens.getD 0 ≤
      (processJson event st).1.total_usage.cache_write_tokens.getD 0 := by
  refine ⟨?_, ?_, ?_, ?_⟩
  · rcases processJson_input_change event st with h | h <;> rw [h] <;>
      simp only [w32] <;> omega
  · rcases processJson_output_change event st with h | h <;> rw [h] <;>
      simp only [w32] <;> omega
  · rcases processJson_cache_read_change event st with h | h <;> rw [h] <;>
      simp only [w32] <;> omega
  · rcases processJson_cache_write_change event st with h | h <;> rw [h] <;>
      simp only [w32] <;> omega

theorem usage_tally_monotone_witness :
    initSession.total_usage.input_tokens ≤
      (processJson msgStartOne initSession).1.total_usage.input_tokens ∧
    initSession.total_usage.output_tokens ≤
      (processJson msgStartOne initSession).1.total_usage.output_tokens ∧
    initSession.total_usage.cache_read_tokens.getD 0 ≤
      (processJson msgStartOne initSession).1.total_usage.cache_read_tokens.getD 0 ∧
    initSession.total_usage.cache_write_tokens.getD 0 ≤
      (processJson msgStartOne initSession).1.total_usage.cache_write_tokens.getD 0 :=
  usage_tally_monotone msgStartOne initSession (by decide) (by decide) (by decide)
    (by decide)

/-- C5 counterexample: with the input tally at `u32::MAX`, a
`message_start` adding one more token wraps the counter to `0`, so the
counter strictly decreases — the unconditional monotonicity claim is
false under the modulo-`2^32` arithmetic the claim itself stipulates. -/
theorem usage_tally_wraps :
    (processJson msgStartOne maxedSession).1.total_usage.input_tokens = 0 ∧
    maxedSession.total_usage.input_tokens = 4294967295 ∧
    ¬ maxedSession.total_usage.input_tokens ≤
        (processJson msgStartOne maxedSession).1.total_usage.input_tokens := by
  refine ⟨by decide, rfl, by decide⟩

/-- C1 (code-bug evaluation): on a tool list whose first tool has
exactly one field, the payload builder attaches the ephemeral cache
marker to the first tool as well as the last, because the map pass
compares the list index `i` against the tool object's own `len() - 1`
instead of the list length. -/
theorem payload_marks_first_and_last_tool :
    (buildBody c1Request MODEL_HAIKU).getField "tools" =
      Json.arr
        [Json.obj [("name", Json.str "a"), ("cache_control", ephemeralMarker)],
         Json.obj [("name", Json.str "b"), ("x", Json.num 1), ("y", Json.num 2),
                   ("cache_control", ephemeralMarker)]] := rfl

/-! ## Frame-reassembly lemmas -/

theorem findTwoNl_cons2 (c c2 : Char) (t : List Char) :
    findTwoNl (c :: c2 :: t) =
      if c = '\n' ∧ c2 = '\n' then some 0
      else (findTwoNl (c2 :: t)).map (· + 1) := rfl

theorem findTwoNl_bound : ∀ (l : List Char) (i : Nat), findTwoNl l = some i → i + 2 ≤ l.length := by
  intro l
  induction l with
  | nil => intro i h; simp [findTwoNl] at h
  | cons c rest ih =>
    intro i h
    cases rest with
    | nil => simp [findTwoNl] at h
    | cons c2 t =>
      rw [findTwoNl_cons2] at h
      split_ifs at h with hc
      · simp only [Option.some.injEq] at h
        subst h
        simp [List.length_cons]
      · rcases hmap : findTwoNl (c2 :: t) with _ | j <;> rw [hmap] at h <;> simp at h
        have hb := ih j hmap
        simp only [List.length_cons] at hb ⊢
        omega

theorem findTwoNl_append (u v : List Char) :
    ∀ i, findTwoNl u = some i → findTwoNl (u ++ v) = some i := by
  induction u with
  | nil => intro i h; simp [findTwoNl] at h
  | cons c rest ih =>
    intro i h
    cases rest with
    | nil => simp [findTwoNl] at h
    | cons c2 t =>
      rw [findTwoNl_cons2] at h
      rw [List.cons_append, List.cons_append, findTwoNl_cons2]
      split_ifs at h ⊢ with hc
      · exact h
      · rcases hmap : findTwoNl (c2 :: t) with _ | j <;> rw [hmap] at h <;> simp at h
        have h2 := ih j hmap
        rw [List.cons_append] at h2
        rw [h2]
        simp [h]

theorem findTwoNl_none_drain (f : Nat) (buf : List Char) (st : Session)
    (h : findTwoNl buf = none) : drainAux f buf st = (buf, st, []) := by
  cases f with
  | zero => rfl
  | succ f => simp [drainAux, h]

theorem drainAux_step (f : Nat) (buf : List Char) (st : Session) (i : Nat)
    (h : findTwoNl buf = some i) :
    drainAux (f + 1) buf st =
      ((drainAux f (buf.drop (i + 2)) (processFrame (buf.take i) st).1).1,
       (drainAux f (buf.drop (i + 2)) (processFrame (buf.take i) st).1).2.1,
       (processFrame (buf.take i) st).2 ++
         (drainAux f (buf.drop (i + 2)) (processFrame (buf.take i) st).1).2.2) := by
  simp [drainAux, h]

theorem drainAux_fuel : ∀ (f1 f2 : Nat) (buf : List Char) (st : Session),
    buf.length ≤ f1 → buf.length ≤ f2 → drainAux f1 buf st = drainAux f2 buf st := by
  intro f1
  induction f1 with
  | zero =>
    intro f2 buf st h1 h2
    have hb : buf = [] := by cases buf <;> simp_all
    subst hb
    rw [findTwoNl_none_drain 0 [] st rfl, findTwoNl_none_drain f2 [] st rfl]
  | succ f1 ih =>
    intro f2 buf st h1 h2
    rcases hfind : findTwoNl buf with _ | i
    · rw [findTwoNl_none_drain _ _ _ hfind, findTwoNl_none_drain _ _ _ hfind]
    · have hb := findTwoNl_bound buf i hfind
      cases f2 with
      | zero => omega
      | succ f2 =>
        rw [drainAux_step f1 buf st i hfind, drainAux_step f2 buf st i hfind]
        rw [ih f2 (buf.drop (i + 2)) (processFrame (buf.take i) st).1
          (by simp [List.length_drop]; omega) (by simp [List.length_drop]; omega)]

theorem drainBuffer_none (buf : List Char) (st : Session)
    (h : findTwoNl buf = none) : drainBuffer buf st = (buf, st, []) :=
  findTwoNl_none_drain _ _ _ h

theorem drainBuffer_some (buf : List Char) (st : Session) (i : Nat)
    (h : findTwoNl buf = some i) :
    drainBuffer buf st =
      ((drainBuffer (buf.drop (i + 2)) (processFrame (buf.take i) st).1).1,
       (drainBuffer (buf.drop (i + 2)) (processFrame (buf.take i) st).1).2.1,
       (processFrame (buf.take i) st).2 ++
         (drainBuffer (buf.drop (i + 2)) (processFrame (buf.take i) st).1).2.2) := by
  have hb := findTwoNl_bound buf i h
  have h1 : buf.length = (buf.length - 1) + 1 := by omega
  unfold drainBuffer
  rw [h1, drainAux_step _ _ _ i h,
    drainAux_fuel (buf.length - 1) ((buf.drop (i + 2)).length)
      (buf.drop (i + 2)) (processFrame (buf.take i) st).1
      (by simp [List.length_drop]; omega) (le_refl _)]

theorem drainBuffer_append_aux : ∀ (n : Nat) (u : List Char), u.length ≤ n →
    ∀ (v : List Char) (st : Session),
    drainBuffer (u ++ v) st =
      ((drainBuffer ((drainBuffer u st).1 ++ v) (drainBuffer u st).2.1).1,
       (drainBuffer ((drainBuffer u st).1 ++ v) (drainBuffer u st).2.1).2.1,
       (drainBuffer u st).2.2 ++
         (drainBuffer ((drainBuffer u st).1 ++ v) (drainBuffer u st).2.1).2.2) := by
  intro n
  induction n with
  | zero =>
    intro u hu v st
    have hnil : u = [] := by cases u <;> simp_all
    subst hnil
    rw [drainBuffer_none [] st rfl]
    simp
  | succ n ih =>
    intro u hu v st
    rcases hfind : findTwoNl u with _ | i
    · rw [drainBuffer_none u st hfind]
      simp
    · have hb := findTwoNl_bound u i hfind
      have hfind2 : findTwoNl (u ++ v) = some i := findTwoNl_append u v i hfind
      have htake : (u ++ v).take i = u.take i :=
        List.take_append_of_le_length (by omega)
      have hdrop : (u ++ v).drop (i + 2) = u.drop (i + 2) ++ v :=
        List.drop_append_of_le_length (by omega)
      rw [drainBuffer_some (u ++ v) st i hfind2, drainBuffer_some u st i hfind,
        htake, hdrop]
      rw [ih (u.drop (i + 2)) (by simp [List.length_drop]; omega) v
        (processFrame (u.take i) st).1]
      simp [List.append_assoc]

theorem drainBuffer_append (u v : List Char) (st : Session) :
    drainBuffer (u ++ v) st =
      ((drainBuffer ((drainBuffer u st).1 ++ v) (drainBuffer u st).2.1).1,
       (drainBuffer ((drainBuffer u st).1 ++ v) (drainBuffer u st).2.1).2.1,
       (drainBuffer u st).2.2 ++
         (drainBuffer ((drainBuffer u st).1 ++ v) (drainBuffer u st).2.1).2.2) :=
  drainBuffer_append_aux u.length u (le_refl _) v st

theorem feedChunk_append (d : DecState) (a b : List Char) :
    feedChunk d (a ++ b) =
      ((feedChunk (feedChunk d a).1 b).1,
       (feedChunk d a).2 ++ (feedChunk (feedChunk d a).1 b).2) := by
  unfold feedChunk
  rw [← List.append_assoc, drainBuffer_append (d.buffer ++ a) b d.session]

theorem drainAux_leftover : ∀ (f : Nat) (buf : List Char) (st : Session),
    buf.length ≤ f → findTwoNl (drainAux f buf st).1 = none := by
  intro f
  induction f with
  | zero =>
    intro buf st h
    have hnil : buf = [] := by cases buf <;> simp_all
    subst hnil
    rfl
  | succ f ih =>
    intro buf st h
    rcases hfind : findTwoNl buf with _ | i
    · rw [findTwoNl_none_drain _ _ _ hfind]
      exact hfind
    · have hb := findTwoNl_bound buf i hfind
      rw [drainAux_step f buf st i hfind]
      exact ih (buf.drop (i + 2)) (processFrame (buf.take i) st).1
        (by simp [List.length_drop]; omega)

theorem feedChunk_leftover (d : DecState) (s : List Char) :
    findTwoNl (feedChunk d s).1.buffer = none :=
  drainAux_leftover _ _ _ (le_refl _)

theorem feedChunk_nil (d : DecState) (h : findTwoNl d.buffer = none) :
    feedChunk d [] = (d, []) := by
  unfold feedChunk
  rw [List.append_nil, drainBuffer_none d.buffer d.session h]

theorem feedChunks_join : ∀ (chunks : List (List Char)) (d : DecState),
    findTwoNl d.buffer = none →
    feedChunks d chunks = feedChunk d chunks.flatten := by
  intro chunks
  induction chunks with
  | nil =>
    intro d h
    rw [show List.flatten ([] : List (List Char)) = [] from rfl, feedChunk_nil d h]
    rfl
  | cons c cs ih =>
    intro d h
    have h1 : feedChunks d (c :: cs) =
        ((feedChunks (feedChunk d c).1 cs).1,
         (feedChunk d c).2 ++ (feedChunks (feedChunk d c).1 cs).2) := rfl
    rw [h1, ih (feedChunk d c).1 (feedChunk_leftover d c),
      show (c :: cs).flatten = c ++ cs.flatten from rfl,
      feedChunk_append d c cs.flatten]

theorem decodeLoop_ok : ∀ (bs : List (List Nat)) (d : DecState),
    decodeLoop (bs.map Except.ok) d =
      ((feedChunks d (bs.map utf8LossyChars)).1,
       (feedChunks d (bs.map utf8LossyChars)).2, none) := by
  intro bs
  induction bs with
  | nil => intro d; rfl
  | cons b bs ih =>
    intro d
    have h1 : decodeLoop ((b :: bs).map Except.ok) d =
        ((decodeLoop (bs.map Except.ok) (feedChunk d (utf8LossyChars b)).1).1,
         (feedChunk d (utf8LossyChars b)).2 ++
           (decodeLoop (bs.map Except.ok) (feedChunk d (utf8LossyChars b)).1).2.1,
         (decodeLoop (bs.map Except.ok) (feedChunk d (utf8LossyChars b)).1).2.2) := rfl
    rw [h1, ih (feedChunk d (utf8LossyChars b)).1]
    rfl


/-- C4 (amended): invoked without an API credential, `chat_stream`
returns the error to its caller as the command result and publishes no
event at all for the stream — in particular no `error` event and no
`model_selected` (the spec's claim of a published `error` event does not
match the early return). -/
theorem missing_key_publishes_nothing (req : ChatRequest) (resp : RespOutcome) :
    chat_stream none req resp = (Except.error "API key not set", []) := rfl

/-- C4 counterexample: at a concrete request with no credential set, the
command rejects with `Err` and the number of published `error` events is
zero, not one, and nothing else is published either. -/
theorem missing_key_zero_error_events :
    (chat_stream none plainRequest (RespOutcome.ok [])).1 =
      Except.error "API key not set" ∧
    (chat_stream none plainRequest (RespOutcome.ok [])).2 = [] ∧
    ((chat_stream none plainRequest (RespOutcome.ok [])).2).countP isErrorEv = 0 :=
  ⟨rfl, rfl, rfl⟩

/-- C2 (amended): the decoding loop is chunk-boundary independent up to
the per-chunk lossy UTF-8 decode: any two chunkings whose per-chunk
decoded texts concatenate to the same character stream produce identical
decoder results (state, events, and error).  The unamended byte-level
claim fails when a boundary splits a multi-byte character, see the
counterexample. -/
theorem decode_chunk_boundary_indep (bs1 bs2 : List (List Nat))
    (h : (bs1.map utf8LossyChars).flatten = (bs2.map utf8LossyChars).flatten) :
    decodeLoop (bs1.map Except.ok) initDecState =
      decodeLoop (bs2.map Except.ok) initDecState := by
  rw [decodeLoop_ok bs1 initDecState, decodeLoop_ok bs2 initDecState,
    feedChunks_join (bs1.map utf8LossyChars) initDecState rfl,
    feedChunks_join (bs2.map utf8LossyChars) initDecState rfl, h]

theorem decode_chunk_boundary_indep_witness :
    decodeLoop ([c2Bytes].map Except.ok) initDecState =
      decodeLoop ([c2BytesA', c2BytesB'].map Except.ok) initDecState :=
  decode_chunk_boundary_indep [c2Bytes] [c2BytesA', c2BytesB'] rfl

/-- C2 counterexample: one byte stream, two chunkings (the second splits
the two-byte UTF-8 character `é`), different published events: the lossy
per-chunk decode turns the split character into two replacement
characters, so the decoded event sequences differ. -/
theorem chunk_split_alters_events :
    c2BytesA ++ c2BytesB = c2Bytes ∧
    (decodeLoop [Except.ok c2Bytes] initDecState).2.1 =
      [ChatEvent.text "é"] ∧
    (decodeLoop [Except.ok c2BytesA, Except.ok c2BytesB] initDecState).2.1 =
      [ChatEvent.text "��"] ∧
    ("é" : String) ≠ "��" := by
  refine ⟨by decide, rfl, rfl, by decide⟩


end ChatRelay

namespace ChatRelay

theorem processLines_acc : ∀ (ls : List (List Char)) (st : Session) (evs : List ChatEvent),
    ls.foldl processLineStep (st, evs) =
      ((processLines ls st).1, evs ++ (processLines ls st).2) := by
  intro ls
  induction ls with
  | nil => intro st evs; simp [processLines]
  | cons l ls ih =>
    intro st evs
    rcases hl : stripDataTag l with _ | d
    · have e1 : processLineStep (st, evs) l = (st, evs) := by
        simp [processLineStep, hl]
      have e2 : processLines (l :: ls) st = processLines ls st := by
        simp [processLines, List.foldl_cons, processLineStep, hl]
      rw [e2, show (l :: ls).foldl processLineStep (st, evs) =
        ls.foldl processLineStep (processLineStep (st, evs) l) from rfl, e1, ih st evs]
    · have e1 : processLineStep (st, evs) l =
          ((processData (String.mk d) st).1, evs ++ (processData (String.mk d) st).2) := by
        simp [processLineStep, hl]
      have e2 : processLines (l :: ls) st =
          ((processLines ls (processData (String.mk d) st).1).1,
           (processData (String.mk d) st).2 ++
             (processLines ls (processData (String.mk d) st).1).2) := by
        show ls.foldl processLineStep (processLineStep (st, []) l) = _
        rw [show processLineStep (st, []) l =
          ((processData (String.mk d) st).1, [] ++ (processData (String.mk d) st).2) from by
            simp [processLineStep, hl]]
        rw [List.nil_append, show ((processData (String.mk d) st).1,
          (processData (String.mk d) st).2) =
          ((processData (String.mk d) st).1, [] ++ (processData (String.mk d) st).2) from by simp]
        rw [ih (processData (String.mk d) st).1 ([] ++ (processData (String.mk d) st).2)]
        simp
      rw [e2, show (l :: ls).foldl processLineStep (st, evs) =
        ls.foldl processLineStep (processLineStep (st, evs) l) from rfl, e1,
        ih (processData (String.mk d) st).1 (evs ++ (processData (String.mk d) st).2)]
      simp [List.append_assoc]

theorem processLines_append (l1 l2 : List (List Char)) (st : Session) :
    processLines (l1 ++ l2) st =
      ((processLines l2 (processLines l1 st).1).1,
       (processLines l1 st).2 ++ (processLines l2 (processLines l1 st).1).2) := by
  unfold processLines
  rw [List.foldl_append]
  rw [show List.foldl processLineStep (st, []) l1 = processLines l1 st from rfl]
  rw [show (processLines l1 st : Session × List ChatEvent) =
    ((processLines l1 st).1, (processLines l1 st).2) from rfl]
  exact processLines_acc l2 (processLines l1 st).1 (processLines l1 st).2

theorem processDatas_acc : ∀ (ds : List (List Char)) (st : Session) (evs : List ChatEvent),
    ds.foldl (fun acc d =>
      ((processData (String.mk d) acc.1).1, acc.2 ++ (processData (String.mk d) acc.1).2))
      (st, evs) =
      ((processDatas ds st).1, evs ++ (processDatas ds st).2) := by
  intro ds
  induction ds with
  | nil => intro st evs; simp [processDatas]
  | cons d ds ih =>
    intro st evs
    show ds.foldl _ ((processData (String.mk d) st).1, evs ++ (processData (String.mk d) st).2) = _
    rw [ih (processData (String.mk d) st).1 (evs ++ (processData (String.mk d) st).2)]
    have e2 : processDatas (d :: ds) st =
        ((processDatas ds (processData (String.mk d) st).1).1,
         (processData (String.mk d) st).2 ++
           (processDatas ds (processData (String.mk d) st).1).2) := by
      show ds.foldl _ ((processData (String.mk d) st).1, [] ++ (processData (String.mk d) st).2) = _
      rw [ih (processData (String.mk d) st).1 ([] ++ (processData (String.mk d) st).2)]
      simp
    rw [e2]
    simp [List.append_assoc]

theorem processDatas_append (d1 d2 : List (List Char)) (st : Session) :
    processDatas (d1 ++ d2) st =
      ((processDatas d2 (processDatas d1 st).1).1,
       (processDatas d1 st).2 ++ (processDatas d2 (processDatas d1 st).1).2) := by
  unfold processDatas
  rw [List.foldl_append]
  rw [show List.foldl _ (st, []) d1 = processDatas d1 st from rfl]
  rw [show (processDatas d1 st : Session × List ChatEvent) =
    ((processDatas d1 st).1, (processDatas d1 st).2) from rfl]
  exact processDatas_acc d2 (processDatas d1 st).1 (processDatas d1 st).2

theorem processLines_eq_datas : ∀ (ls : List (List Char)) (st : Session),
    processLines ls st = processDatas (ls.filterMap stripDataTag) st := by
  intro ls
  induction ls with
  | nil => intro st; rfl
  | cons l ls ih =>
    intro st
    rcases hl : stripDataTag l with _ | d
    · have e2 : processLines (l :: ls) st = processLines ls st := by
        simp [processLines, List.foldl_cons, processLineStep, hl]
      rw [e2, List.filterMap_cons, hl, ih]
    · rw [List.filterMap_cons, hl]
      have e2 : processLines (l :: ls) st =
          ((processLines ls (processData (String.mk d) st).1).1,
           (processData (String.mk d) st).2 ++
             (processLines ls (processData (String.mk d) st).1).2) := by
        show ls.foldl processLineStep (processLineStep (st, []) l) = _
        rw [show processLineStep (st, []) l =
          ((processData (String.mk d) st).1, (processData (String.mk d) st).2) from by
            simp [processLineStep, hl]]
        rw [show ((processData (String.mk d) st).1, (processData (String.mk d) st).2) =
          ((processData (String.mk d) st).1,
            ([] : List ChatEvent) ++ (processData (String.mk d) st).2) from by simp]
        rw [processLines_acc ls (processData (String.mk d) st).1]
        simp
      have e3 : processDatas (d :: ls.filterMap stripDataTag) st =
          ((processDatas (ls.filterMap stripDataTag) (processData (String.mk d) st).1).1,
           (processData (String.mk d) st).2 ++
             (processDatas (ls.filterMap stripDataTag) (processData (String.mk d) st).1).2) := by
        show (ls.filterMap stripDataTag).foldl _
          ((processData (String.mk d) st).1,
            ([] : List ChatEvent) ++ (processData (String.mk d) st).2) = _
        rw [processDatas_acc (ls.filterMap stripDataTag) (processData (String.mk d) st).1]
        simp
      rw [e2, e3, ih]

theorem framesAux_fuel : ∀ (f1 f2 : Nat) (s : List Char),
    s.length ≤ f1 → s.length ≤ f2 → framesAux f1 s = framesAux f2 s := by
  intro f1
  induction f1 with
  | zero =>
    intro f2 s h1 h2
    have hnil : s = [] := by cases s <;> simp_all
    subst hnil
    cases f2 <;> simp [framesAux, findTwoNl]
  | succ f1 ih =>
    intro f2 s h1 h2
    rcases hfind : findTwoNl s with _ | i
    · cases f2 <;> simp [framesAux, hfind]
    · have hb := findTwoNl_bound s i hfind
      cases f2 with
      | zero => omega
      | succ f2 =>
        simp only [framesAux, hfind]
        rw [ih f2 (s.drop (i + 2))
          (by simp [List.length_drop]; omega) (by simp [List.length_drop]; omega)]

theorem framesOf_none (s : List Char) (h : findTwoNl s = none) :
    framesOf s = [] := by
  unfold framesOf
  cases hl : s.length <;> simp [framesAux, h]

theorem framesOf_some (s : List Char) (i : Nat) (h : findTwoNl s = some i) :
    framesOf s = s.take i :: framesOf (s.drop (i + 2)) := by
  have hb := findTwoNl_bound s i h
  have h1 : s.length = (s.length - 1) + 1 := by omega
  unfold framesOf
  rw [h1]
  simp only [framesAux, h]
  rw [framesAux_fuel (s.length - 1) ((s.drop (i + 2)).length) (s.drop (i + 2))
    (by simp [List.length_drop]; omega) (le_refl _)]

theorem drainBuffer_datas_aux : ∀ (n : Nat) (buf : List Char), buf.length ≤ n →
    ∀ (st : Session),
    (drainBuffer buf st).2.1 = (processDatas (streamDataLines buf) st).1 ∧
    (drainBuffer buf st).2.2 = (processDatas (streamDataLines buf) st).2 := by
  intro n
  induction n with
  | zero =>
    intro buf hb st
    have hnil : buf = [] := by cases buf <;> simp_all
    subst hnil
    exact ⟨rfl, rfl⟩
  | succ n ih =>
    intro buf hbuf st
    rcases hfind : findTwoNl buf with _ | i
    · rw [drainBuffer_none buf st hfind]
      unfold streamDataLines
      rw [framesOf_none buf hfind]
      exact ⟨rfl, rfl⟩
    · have hb := findTwoNl_bound buf i hfind
      rw [drainBuffer_some buf st i hfind]
      have hsdl : streamDataLines buf =
          (rustLines (buf.take i)).filterMap stripDataTag ++
            streamDataLines (buf.drop (i + 2)) := by
        unfold streamDataLines
        rw [framesOf_some buf i hfind]
        simp [List.filterMap_append]
      rw [hsdl, processDatas_append]
      have hframe : processDatas ((rustLines (buf.take i)).filterMap stripDataTag) st =
          processFrame (buf.take i) st := by
        rw [← processLines_eq_datas]
        rfl
      rw [hframe]
      have hrec := ih (buf.drop (i + 2)) (by simp [List.length_drop]; omega)
        (processFrame (buf.take i) st).1
      refine ⟨?_, ?_⟩
      · simpa using hrec.1
      · simpa using hrec.2

theorem drainBuffer_datas (buf : List Char) (st : Session) :
    (drainBuffer buf st).2.1 = (processDatas (streamDataLines buf) st).1 ∧
    (drainBuffer buf st).2.2 = (processDatas (streamDataLines buf) st).2 :=
  drainBuffer_datas_aux buf.length buf (le_refl _) st

theorem processData_message_stop (d : String) (st : Session) (j : Json)
    (hp : parseJson d = some j)
    (ht : ((j.getField "type").asStr).getD "" = "message_stop") :
    processData d st = (st, [ChatEvent.usage st.total_usage, ChatEvent.done]) := by
  have hd : d ≠ "[DONE]" := by
    intro he
    rw [he] at hp
    rw [show parseJson "[DONE]" = none from rfl] at hp
    exact Option.noConfusion hp
  unfold processData
  rw [if_neg hd, hp]
  show processJson j st = _
  unfold processJson
  rw [ht]
  norm_num
  simp

theorem processJson_no_meta (event : Json) (st : Session) :
    ∀ e ∈ (processJson event st).2, isMeta e = false := by
  intro e he
  rcases processJson_events_cases event st with h | ⟨s, h⟩ | ⟨h, _⟩ |
    ⟨id, nm, _, _, _, h⟩ <;> rw [h] at he <;>
    simp_all [isMeta, isModelSel, isErrorEv] <;>
    rcases he with he | he <;> subst he <;> first | rfl | exact ⟨rfl, rfl⟩

theorem processData_no_meta (d : String) (st : Session) :
    ∀ e ∈ (processData d st).2, isMeta e = false := by
  intro e he
  unfold processData at he
  split_ifs at he with h1
  · simp at he
  · rcases hp : parseJson d with _ | j <;> rw [hp] at he
    · simp at he
    · exact processJson_no_meta j st e he

theorem processDatas_no_meta : ∀ (ds : List (List Char)) (st : Session),
    ∀ e ∈ (processDatas ds st).2, isMeta e = false := by
  intro ds
  induction ds with
  | nil => intro st e he; simp [processDatas] at he
  | cons d ds ih =>
    intro st e he
    have e2 : processDatas (d :: ds) st =
        ((processDatas ds (processData (String.mk d) st).1).1,
         (processData (String.mk d) st).2 ++
           (processDatas ds (processData (String.mk d) st).1).2) := by
      show ds.foldl _ ((processData (String.mk d) st).1,
        ([] : List ChatEvent) ++ (processData (String.mk d) st).2) = _
      rw [processDatas_acc ds (processData (String.mk d) st).1]
      simp
    rw [e2] at he
    simp only [List.mem_append] at he
    rcases he with he | he
    · exact processData_no_meta (String.mk d) st e he
    · exact ih (processData (String.mk d) st).1 e he


end ChatRelay
namespace ChatRelay

theorem pair_props (m0 err : String) :
    (([ChatEvent.model_selected m0, ChatEvent.error err] : List ChatEvent).countP isModelSel ≤ 1) ∧
    (∀ m, ChatEvent.model_selected m ∈ ([ChatEvent.model_selected m0, ChatEvent.error err] : List ChatEvent) →
        ([ChatEvent.model_selected m0, ChatEvent.error err] : List ChatEvent).head? =
          some (ChatEvent.model_selected m)) ∧
    (∀ e, ChatEvent.error e ∈ ([ChatEvent.model_selected m0, ChatEvent.error err] : List ChatEvent) →
        ([ChatEvent.model_selected m0, ChatEvent.error err] : List ChatEvent).getLast? =
          some (ChatEvent.error e)) := by
  refine ⟨by simp [List.countP_cons, isModelSel], ?_, ?_⟩
  · intro m hm
    simp only [List.mem_cons, List.not_mem_nil, or_false] at hm
    rcases hm with hm | hm <;> simp_all
  · intro e he
    simp only [List.mem_cons, List.not_mem_nil, or_false] at he
    rcases he with he | he <;> simp_all [List.getLast?]

theorem chat_stream_pub_sendFail (key : String) (req : ChatRequest) (e : String) :
    (chat_stream (some key) req (RespOutcome.sendFail e)).2 =
      [ChatEvent.model_selected (select_model req.model req.messages),
       ChatEvent.error ("Request failed: " ++ e)] := rfl

theorem chat_stream_pub_httpFail (key : String) (req : ChatRequest) (s b : String) :
    (chat_stream (some key) req (RespOutcome.httpFail s b)).2 =
      [ChatEvent.model_selected (select_model req.model req.messages),
       ChatEvent.error ("API error " ++ s ++ ": " ++ b)] := rfl

theorem chat_stream_pub_ok (key : String) (req : ChatRequest)
    (chunks : List (Except String (List Nat))) :
    (chat_stream (some key) req (RespOutcome.ok chunks)).2 =
      ChatEvent.model_selected (select_model req.model req.messages) ::
        ((decodeLoop chunks initDecState).2.1 ++
          (match (decodeLoop chunks initDecState).2.2 with
           | some e => [ChatEvent.error e]
           | none => [])) := by
  show ([ChatEvent.model_selected (select_model req.model req.messages)] ++
      (decodeLoop chunks initDecState).2.1) ++ _ = _
  simp [List.cons_append, run_chat_stream_events]

theorem feedChunk_no_meta (d : DecState) (s : List Char) :
    ∀ e ∈ (feedChunk d s).2, isMeta e = false := by
  intro e he
  have h1 : (feedChunk d s).2 = (drainBuffer (d.buffer ++ s) d.session).2.2 := rfl
  have h2 := (drainBuffer_datas (d.buffer ++ s) d.session).2
  rw [h1, h2] at he
  exact processDatas_no_meta _ _ e he

theorem decodeLoop_no_meta : ∀ (chunks : List (Except String (List Nat))) (d : DecState),
    ∀ e ∈ (decodeLoop chunks d).2.1, isMeta e = false := by
  intro chunks
  induction chunks with
  | nil => intro d e he; simp [decodeLoop] at he
  | cons c cs ih =>
    intro d e he
    cases c with
    | error err => simp [decodeLoop] at he
    | ok b =>
      have h1 : (decodeLoop (Except.ok b :: cs) d).2.1 =
          (feedChunk d (utf8LossyChars b)).2 ++
            (decodeLoop cs (feedChunk d (utf8LossyChars b)).1).2.1 := rfl
      rw [h1] at he
      rcases List.mem_append.mp he with h | h
      · exact feedChunk_no_meta _ _ e h
      · exact ih _ e h

theorem getLast?_tail_pair (a u d : ChatEvent) (l : List ChatEvent) :
    (a :: (l ++ [u, d])).getLast? = some d := by
  rw [← List.cons_append,
    show ([u, d] : List ChatEvent) = [u] ++ [d] from rfl,
    ← List.append_assoc, List.getLast?_append_of_ne_nil _ (by simp)]
  rfl

set_option maxHeartbeats 2000000 in
/-- C3 (amended): at most one `model_selected` is published and only as
the head of the stream; an `error` event, once published, is the last
event; and `done` is the last event provided the stream's final data
line is the `message_stop` line.  The unamended claim — nothing after
`done` even when frames continue — fails because the decoding loop has
no terminal transition, see the counterexample. -/
theorem published_event_order (api_key : Option String) (req : ChatRequest)
    (resp : RespOutcome) :
    ((chat_stream api_key req resp).2.countP isModelSel ≤ 1) ∧
    (∀ m, ChatEvent.model_selected m ∈ (chat_stream api_key req resp).2 →
        (chat_stream api_key req resp).2.head? =
          some (ChatEvent.model_selected m)) ∧
    (∀ e, ChatEvent.error e ∈ (chat_stream api_key req resp).2 →
        (chat_stream api_key req resp).2.getLast? =
          some (ChatEvent.error e)) ∧
    (∀ (key : String) (bytes : List (List Nat)) (dl : List Char) (j : Json),
        api_key = some key →
        resp = RespOutcome.ok (bytes.map Except.ok) →
        (streamDataLines ((bytes.map utf8LossyChars).flatten)).getLast? =
          some dl →
        parseJson (String.mk dl) = some j →
        ((j.getField "type").asStr).getD "" = "message_stop" →
        (chat_stream api_key req resp).2.getLast? = some ChatEvent.done) := by
  cases api_key with
  | none =>
    refine ⟨by simp [chat_stream], by simp [chat_stream], by simp [chat_stream], ?_⟩
    intro key bytes dl j hk
    exact absurd hk (by simp)
  | some key =>
    cases resp with
    | sendFail e =>
      rw [chat_stream_pub_sendFail key req e]
      refine ⟨(pair_props _ _).1, (pair_props _ _).2.1, (pair_props _ _).2.2, ?_⟩
      intro key' bytes dl j _ hresp
      exact absurd hresp (by simp)
    | httpFail s b =>
      rw [chat_stream_pub_httpFail key req s b]
      refine ⟨(pair_props _ _).1, (pair_props _ _).2.1, (pair_props _ _).2.2, ?_⟩
      intro key' bytes dl j _ hresp
      exact absurd hresp (by simp)
    | ok chunks =>
      rw [chat_stream_pub_ok key req chunks]
      have h0 : (decodeLoop chunks initDecState).2.1.countP isModelSel = 0 :=
        List.countP_eq_zero.mpr (fun a ha => by
          have hm := decodeLoop_no_meta chunks initDecState a ha
          simp only [isMeta, Bool.or_eq_false_iff] at hm
          simp [hm.1])
      refine ⟨?_, ?_, ?_, ?_⟩
      · rcases herr : (decodeLoop chunks initDecState).2.2 with _ | e0 <;>
          simp [herr, List.countP_cons, List.countP_append, h0, isModelSel]
      · intro m hm
        rcases List.mem_cons.mp hm with hm | hm
        · simp [hm]
        · exfalso
          rcases List.mem_append.mp hm with h | h
          · have hmm := decodeLoop_no_meta chunks initDecState _ h
            simp [isMeta, isModelSel] at hmm
          · rcases herr : (decodeLoop chunks initDecState).2.2 with _ | e0 <;>
              rw [herr] at h <;> simp at h
      · intro e he
        rcases List.mem_cons.mp he with he | he
        · exact absurd he (by simp)
        · rcases List.mem_append.mp he with h | h
          · have hm := decodeLoop_no_meta chunks initDecState _ h
            simp [isMeta, isErrorEv] at hm
          · rcases herr : (decodeLoop chunks initDecState).2.2 with _ | e0 <;>
              rw [herr] at h
            · simp at h
            · simp only [List.mem_singleton] at h
              show (ChatEvent.model_selected (select_model req.model req.messages) ::
                ((decodeLoop chunks initDecState).2.1 ++ [ChatEvent.error e0])).getLast? =
                  some (ChatEvent.error e)
              rw [← List.cons_append,
                List.getLast?_append_of_ne_nil _ (by simp)]
              simp [h]
      · intro key' bytes dl j hk hresp hlast hp ht
        have hchunks : chunks = bytes.map Except.ok := by
          injection hresp
        subst hchunks
        rw [decodeLoop_ok bytes initDecState]
        show (ChatEvent.model_selected _ ::
          ((feedChunks initDecState (bytes.map utf8LossyChars)).2 ++ [])).getLast? = _
        rw [List.append_nil,
          feedChunks_join (bytes.map utf8LossyChars) initDecState rfl]
        have hfe : (feedChunk initDecState ((bytes.map utf8LossyChars).flatten)).2 =
            (drainBuffer ((bytes.map utf8LossyChars).flatten) initSession).2.2 := by
          show (drainBuffer ([] ++ (bytes.map utf8LossyChars).flatten)
            initSession).2.2 = _
          rw [List.nil_append]
        rw [hfe, (drainBuffer_datas ((bytes.map utf8LossyChars).flatten)
          initSession).2]
        have hsplit : (streamDataLines ((bytes.map utf8LossyChars).flatten)).dropLast
            ++ [dl] = streamDataLines ((bytes.map utf8LossyChars).flatten) :=
          List.dropLast_append_getLast? dl (Option.mem_def.mpr hlast)
        rw [← hsplit, processDatas_append]
        have hone : ∀ st1 : Session,
            (processDatas [dl] st1).2 =
              [ChatEvent.usage st1.total_usage, ChatEvent.done] := by
          intro st1
          show ([] ++ (processData (String.mk dl) st1).2 : List ChatEvent) = _
          rw [processData_message_stop (String.mk dl) st1 j hp ht]
          simp
        rw [hone]
        exact getLast?_tail_pair _ _ _ _


set_option maxRecDepth 4000000 in
theorem published_event_order_witness :
    (chat_stream (some "k") plainRequest
      (RespOutcome.ok ([wellBytes].map Except.ok))).2.getLast? =
      some ChatEvent.done :=
  (published_event_order (some "k") plainRequest
      (RespOutcome.ok ([wellBytes].map Except.ok))).2.2.2 "k" [wellBytes]
    ("\x7b\"type\":\"message_stop\"\x7d".data)
    (Json.obj [("type", Json.str "message_stop")])
    rfl rfl rfl rfl rfl

/-- C3 counterexample: the upstream keeps sending a text frame after
`message_stop`; the code publishes the text event after `done`, so
`done` is not the last event for the stream. -/
theorem done_not_last_when_frames_continue :
    (chat_stream (some "k") plainRequest (RespOutcome.ok [Except.ok c3Bytes])).2 =
      [ChatEvent.model_selected MODEL_HAIKU, ChatEvent.usage initUsage,
       ChatEvent.done, ChatEvent.text "hi"] ∧
    ChatEvent.done ∈
      (chat_stream (some "k") plainRequest (RespOutcome.ok [Except.ok c3Bytes])).2 ∧
    (chat_stream (some "k") plainRequest
      (RespOutcome.ok [Except.ok c3Bytes])).2.getLast? =
      some (ChatEvent.text "hi") ∧
    ChatEvent.text "hi" ≠ ChatEvent.done := by
  refine ⟨rfl, ?_, rfl, by simp⟩
  rw [show (chat_stream (some "k") plainRequest
    (RespOutcome.ok [Except.ok c3Bytes])).2 =
      [ChatEvent.model_selected MODEL_HAIKU, ChatEvent.usage initUsage,
       ChatEvent.done, ChatEvent.text "hi"] from rfl]
  simp

end ChatRelay
